import Mathlib

/-!
# ModelRenderer and the main message loop

A shallow embedding of `Source/Game/Game/Rendering/Model/ModelRenderer.h` and
`Source/Game/main.cpp`.

* Machine integers are natural numbers; a narrowing or a wrapping product is
  written with an explicit `% 2 ^ w`.
* A member function is a function of the renderer state that returns its
  result together with the state it leaves behind.
* A read outside a fixed-size array, or of a slot of a table that does not
  exist, has no defined result in C++; such a call returns `none`.
-/

namespace Game

/-! ## Machine integers -/

/-- Value of `std::numeric_limits<u8>().max()`. -/
def U8_MAX : Nat := 2 ^ 8 - 1

/-- Value of `std::numeric_limits<u16>().max()`. -/
def U16_MAX : Nat := 2 ^ 16 - 1

/-- Conversion of an integer value to `u8`. -/
def toU8 (n : Nat) : Nat := n % 2 ^ 8

/-- Conversion of an integer value to `u16`. -/
def toU16 (n : Nat) : Nat := n % 2 ^ 16

/-- Conversion of an integer value to `u32`. -/
def toU32 (n : Nat) : Nat := n % 2 ^ 32

/-! ## Sentinel constants (ModelRenderer.h, lines 27-29) -/

/-- `constexpr u32 MODEL_INVALID_TEXTURE_ID = 0;` -/
def MODEL_INVALID_TEXTURE_ID : Nat := toU32 0

/-- `constexpr u32 MODEL_INVALID_TEXTURE_TRANSFORM_ID = std::numeric_limits<u16>().max();` -/
def MODEL_INVALID_TEXTURE_TRANSFORM_ID : Nat := toU32 U16_MAX

/-- `constexpr u8 MODEL_INVALID_TEXTURE_UNIT_INDEX = std::numeric_limits<u8>().max();` -/
def MODEL_INVALID_TEXTURE_UNIT_INDEX : Nat := toU8 U8_MAX

/-! ## Data model (ModelRenderer.h, lines 48-91) -/

/-- `ModelRenderer::ModelManifest`. -/
structure ModelManifest where
  debugName : String := ""
  opaqueDrawCallOffset : Nat := 0
  numOpaqueDrawCalls : Nat := 0
  transparentDrawCallOffset : Nat := 0
  numTransparentDrawCalls : Nat := 0
  vertexOffset : Nat := 0
  numVertices : Nat := 0
  indexOffset : Nat := 0
  numIndices : Nat := 0
  deriving DecidableEq, Repr

/-- `ModelRenderer::DrawCallData`. -/
structure DrawCallData where
  instanceID : Nat := 0
  modelID : Nat := 0
  textureUnitOffset : Nat := 0
  numTextureUnits : Nat := 0
  numUnlitTextureUnits : Nat := 0
  deriving DecidableEq, Repr

/-- `ModelRenderer::InstanceData`.  The four animation offsets have no default
member initialiser in the header. -/
structure InstanceData where
  modelID : Nat := 0
  boneDeformOffset : Nat
  boneInstanceDataOffset : Nat
  textureTransformDeformOffset : Nat
  textureTransformInstanceDataOffset : Nat
  modelVertexOffset : Nat := 0
  animatedVertexOffset : Nat := 0
  deriving DecidableEq, Repr

/-- `ModelRenderer::TextureUnit`.  The two arrays have the fixed length 2 of
the C++ declaration; every element of `textureTransformIds` is a `u16`, so
the 32-bit sentinel is narrowed when it is stored. -/
structure TextureUnit where
  data : Nat := 0
  materialType : Nat := 0
  textureIds : Mathlib.Vector Nat 2 :=
    ⟨[ MODEL_INVALID_TEXTURE_ID, MODEL_INVALID_TEXTURE_ID ], rfl⟩
  textureTransformIds : Mathlib.Vector Nat 2 :=
    ⟨[toU16 MODEL_INVALID_TEXTURE_TRANSFORM_ID, toU16 MODEL_INVALID_TEXTURE_TRANSFORM_ID], rfl⟩
  deriving DecidableEq

/-- A `TextureUnit` as its default member initialisers construct it. -/
def TextureUnit.init : TextureUnit := {}

/-! ## Types the header takes from other libraries -/

/-- Modelled from the spec: `Model::ComplexModel::Vertex`, one element of the
"vertex array" of the parsed model description; its content is not
interpreted by the renderer tables. -/
structure Vertex where
  payload : Nat
  deriving DecidableEq, Repr

/-- Modelled from the spec: `mat4x4`, the world transform of an instance; its
content is not interpreted by the renderer tables. -/
structure mat4x4 where
  payload : Nat
  deriving DecidableEq, Repr

/-- Modelled from the spec: `CullingResources<T>`, the external primitive that
"owns per-drawcall metadata" for one draw-call class.  Only the table of
draw-call payloads is carried; the visibility bitsets and the compacted
argument output live on the GPU. -/
structure CullingResources (T : Type) where
  drawCallDatas : List T := []
  deriving DecidableEq

/-- Modelled from the spec: `Terrain::Placement`, the "placement/transform
value from the world-placement collaborator", carried as the world matrix it
stands for. -/
structure Placement where
  worldMatrix : mat4x4
  deriving DecidableEq, Repr

/-- Modelled from the spec: one material slot of a submesh of the parsed
model, its "material/blend metadata, texture references".  A reference is
`some slot` once resolved to a slot of the GPU texture array and `none` when
it could not be resolved. -/
structure MaterialSlot where
  data : Nat
  materialType : Nat
  isUnlit : Bool
  textures : List (Option Nat)
  textureTransforms : List (Option Nat)
  deriving DecidableEq, Repr

/-- Modelled from the spec: one submesh of the parsed model; `isTransparent`
is what its material blend mode decides. -/
structure Submesh where
  isTransparent : Bool
  materialSlots : List MaterialSlot
  deriving DecidableEq, Repr

/-- Modelled from the spec: `Model::ComplexModel`, the "parsed in-memory model
description (vertex array, index array, per-submesh material/blend metadata,
texture references)". -/
structure ComplexModel where
  vertices : List Vertex
  indices : List Nat
  submeshes : List Submesh
  deriving DecidableEq, Repr

/-- Modelled from the spec: a reference slot of a texture unit, "unresolved
textures fall back to the sentinel". -/
def resolveOr (sentinel : Nat) (refs : List (Option Nat)) (i : Nat) : Nat :=
  match refs[i]? with
  | some (some slot) => slot
  | _ => sentinel

/-- Modelled from the spec: the `TextureUnit` entry of one material slot,
"up to two texture ids; up to two texture-transform ids". -/
def buildTextureUnit (m : MaterialSlot) : TextureUnit :=
  { data := toU16 m.data
    materialType := toU16 m.materialType
    textureIds :=
      ⟨[toU32 (resolveOr MODEL_INVALID_TEXTURE_ID m.textures 0),
        toU32 (resolveOr MODEL_INVALID_TEXTURE_ID m.textures 1)], rfl⟩
    textureTransformIds :=
      ⟨[toU16 (resolveOr MODEL_INVALID_TEXTURE_TRANSFORM_ID m.textureTransforms 0),
        toU16 (resolveOr MODEL_INVALID_TEXTURE_TRANSFORM_ID m.textureTransforms 1)], rfl⟩ }

/-- What the expansion of a model's submeshes yields. -/
structure Expanded where
  opaqueDrawCalls : List DrawCallData := []
  transparentDrawCalls : List DrawCallData := []
  textureUnits : List TextureUnit := []
  deriving DecidableEq

/-- Modelled from the spec: "expands the asset's submeshes into
`DrawCallData` + `TextureUnit` entries (splitting opaque vs. transparent by
material blend mode)".  `textureUnitIndex` is the slot of the texture-unit
table the next entry takes. -/
def expandSubmeshes (modelID : Nat) : List Submesh → Nat → Expanded
  | [], _ => {}
  | sm :: rest, textureUnitIndex =>
    let units := sm.materialSlots.map buildTextureUnit
    let drawCall : DrawCallData :=
      { instanceID := 0
        modelID := modelID
        textureUnitOffset := textureUnitIndex
        numTextureUnits := toU16 units.length
        numUnlitTextureUnits := toU16 (sm.materialSlots.filter (·.isUnlit)).length }
    let tail := expandSubmeshes modelID rest (textureUnitIndex + units.length)
    if sm.isTransparent then
      { tail with
        transparentDrawCalls := drawCall :: tail.transparentDrawCalls
        textureUnits := units ++ tail.textureUnits }
    else
      { tail with
        opaqueDrawCalls := drawCall :: tail.opaqueDrawCalls
        textureUnits := units ++ tail.textureUnits }

/-- The draw calls of a table in the half-open range a manifest records. -/
def drawCallRange (table : List DrawCallData) (offset count : Nat) : List DrawCallData :=
  (table.drop offset).take count

/-- Modelled from the spec: the new draw calls of an instance, one per draw
call of the manifest's range, each "bound to this instance". -/
def bindDrawCalls (instanceID : Nat) (drawCalls : List DrawCallData) : List DrawCallData :=
  drawCalls.map (fun d => { d with instanceID := instanceID })

/-! ## Renderer state (ModelRenderer.h, lines 144-183) -/

/-- The data members of `ModelRenderer` that hold tables, counters and
statistics.  `MAX_VIEWS` stands for `Renderer::Settings::MAX_VIEWS`, the
length of the array `_numSurvivingDrawCalls`; its value is declared in the
renderer library and is a parameter here. -/
structure ModelRenderer (MAX_VIEWS : Nat) where
  _modelManifests : List ModelManifest
  _modelManifestsIndex : Nat
  _modelIDToNumInstances : List Nat
  _vertices : List Vertex
  _verticesIndex : Nat
  _indices : List Nat
  _indicesIndex : Nat
  _instanceDatas : List InstanceData
  _instanceMatrices : List mat4x4
  _instanceIndex : Nat
  _textureUnits : List TextureUnit
  _textureUnitIndex : Nat
  _opaqueCullingResources : CullingResources DrawCallData
  _transparentCullingResources : CullingResources DrawCallData
  _numOccluderDrawCalls : Nat
  _numSurvivingDrawCalls : Mathlib.Vector Nat MAX_VIEWS

namespace ModelRenderer

variable {MAX_VIEWS : Nat}

/-- The state the default member initialisers of the header give a renderer:
empty tables, every counter `0`, `_numOccluderDrawCalls = 0` and
`_numSurvivingDrawCalls = { 0 }`. -/
def init (MAX_VIEWS : Nat) : ModelRenderer MAX_VIEWS where
  _modelManifests := []
  _modelManifestsIndex := 0
  _modelIDToNumInstances := []
  _vertices := []
  _verticesIndex := 0
  _indices := []
  _indicesIndex := 0
  _instanceDatas := []
  _instanceMatrices := []
  _instanceIndex := 0
  _textureUnits := []
  _textureUnitIndex := 0
  _opaqueCullingResources := {}
  _transparentCullingResources := {}
  _numOccluderDrawCalls := 0
  _numSurvivingDrawCalls := Mathlib.Vector.replicate MAX_VIEWS 0

/-! ### Accessors defined in the header (lines 114-128) -/

/-- `std::vector<ModelManifest> GetModelManifests() { return _modelManifests; }` -/
def GetModelManifests (self : ModelRenderer MAX_VIEWS) :
    List ModelManifest × ModelRenderer MAX_VIEWS :=
  (self._modelManifests, self)

/-- `u32 GetNumDrawCalls() { return 0; }` -/
def GetNumDrawCalls (self : ModelRenderer MAX_VIEWS) : Nat × ModelRenderer MAX_VIEWS :=
  (0, self)

/-- `u32 GetNumOccluderDrawCalls() { return _numOccluderDrawCalls; }` -/
def GetNumOccluderDrawCalls (self : ModelRenderer MAX_VIEWS) : Nat × ModelRenderer MAX_VIEWS :=
  (self._numOccluderDrawCalls, self)

/-- `u32 GetNumSurvivingDrawCalls(u32 viewID) { return _numSurvivingDrawCalls[viewID]; }`
The subscript is unchecked; outside the array there is no result. -/
def GetNumSurvivingDrawCalls (self : ModelRenderer MAX_VIEWS) (viewID : Nat) :
    Option (Nat × ModelRenderer MAX_VIEWS) :=
  match self._numSurvivingDrawCalls.toList[viewID]? with
  | some n => some (n, self)
  | none => none

/-- `u32 GetNumTriangles() { return 0; }` -/
def GetNumTriangles (self : ModelRenderer MAX_VIEWS) : Nat × ModelRenderer MAX_VIEWS :=
  (0, self)

/-- `u32 GetNumOccluderTriangles() { return _numOccluderDrawCalls * Terrain::CELL_NUM_TRIANGLES; }`
`CELL_NUM_TRIANGLES` is declared in the terrain headers and is a parameter
here; the product is returned as a `u32`. -/
def GetNumOccluderTriangles (CELL_NUM_TRIANGLES : Nat) (self : ModelRenderer MAX_VIEWS) :
    Nat × ModelRenderer MAX_VIEWS :=
  (toU32 (self._numOccluderDrawCalls * CELL_NUM_TRIANGLES), self)

/-- `u32 GetNumSurvivingGeometryTriangles(u32 viewID) { return _numSurvivingDrawCalls[viewID] * Terrain::CELL_NUM_TRIANGLES; }` -/
def GetNumSurvivingGeometryTriangles (CELL_NUM_TRIANGLES : Nat)
    (self : ModelRenderer MAX_VIEWS) (viewID : Nat) :
    Option (Nat × ModelRenderer MAX_VIEWS) :=
  match self._numSurvivingDrawCalls.toList[viewID]? with
  | some n => some (toU32 (n * CELL_NUM_TRIANGLES), self)
  | none => none

/-! ### Operations declared in the header and defined in `ModelRenderer.cpp` -/

/-- Modelled from the spec: the body of `ModelRenderer::Clear` is not in the
header.  "resets all index counters and table contents to empty, logically
releasing all models/instances"; the two statistics members are neither an
index counter nor a table and are kept. -/
def Clear (self : ModelRenderer MAX_VIEWS) : Unit × ModelRenderer MAX_VIEWS :=
  ((), { self with
    _modelManifests := []
    _modelManifestsIndex := 0
    _modelIDToNumInstances := []
    _vertices := []
    _verticesIndex := 0
    _indices := []
    _indicesIndex := 0
    _instanceDatas := []
    _instanceMatrices := []
    _instanceIndex := 0
    _textureUnits := []
    _textureUnitIndex := 0
    _opaqueCullingResources := { drawCallDatas := [] }
    _transparentCullingResources := { drawCallDatas := [] } })

/-- Modelled from the spec: the body of `ModelRenderer::LoadModel` is not in
the header.  "looks up `name` in the manifest table (deduplication); if
already present, returns the existing model id without re-uploading
geometry.  Otherwise: atomically claims a manifest slot, copies the asset's
vertex and index arrays into the shared vertex/index growable buffers
(reserving ranges via the index counters), expands the asset's submeshes
into `DrawCallData` + `TextureUnit` entries (splitting opaque vs.
transparent by material blend mode), and records the resulting ranges into
the manifest."  The model id is the index of the manifest in the table.
Every claim of a range is exclusive in the spec, which has no wrap-around:
the counters and offsets are natural numbers. -/
def LoadModel (self : ModelRenderer MAX_VIEWS) (name : String) (model : ComplexModel) :
    Nat × ModelRenderer MAX_VIEWS :=
  match self._modelManifests.findIdx? (fun m => m.debugName == name) with
  | some modelID => (modelID, self)
  | none =>
    let modelID := self._modelManifestsIndex
    let vertexOffset := self._verticesIndex
    let indexOffset := self._indicesIndex
    let expanded := expandSubmeshes modelID model.submeshes self._textureUnitIndex
    let opaqueDrawCallOffset := self._opaqueCullingResources.drawCallDatas.length
    let transparentDrawCallOffset := self._transparentCullingResources.drawCallDatas.length
    let manifest : ModelManifest :=
      { debugName := name
        opaqueDrawCallOffset := opaqueDrawCallOffset
        numOpaqueDrawCalls := expanded.opaqueDrawCalls.length
        transparentDrawCallOffset := transparentDrawCallOffset
        numTransparentDrawCalls := expanded.transparentDrawCalls.length
        vertexOffset := vertexOffset
        numVertices := model.vertices.length
        indexOffset := indexOffset
        numIndices := model.indices.length }
    (modelID, { self with
      _modelManifests := self._modelManifests ++ [manifest]
      _modelManifestsIndex := self._modelManifestsIndex + 1
      _modelIDToNumInstances := self._modelIDToNumInstances ++ [0]
      _vertices := self._vertices ++ model.vertices
      _verticesIndex := self._verticesIndex + model.vertices.length
      _indices := self._indices ++ model.indices.map toU16
      _indicesIndex := self._indicesIndex + model.indices.length
      _textureUnits := self._textureUnits ++ expanded.textureUnits
      _textureUnitIndex := self._textureUnitIndex + expanded.textureUnits.length
      _opaqueCullingResources :=
        { drawCallDatas :=
            self._opaqueCullingResources.drawCallDatas ++ expanded.opaqueDrawCalls }
      _transparentCullingResources :=
        { drawCallDatas :=
            self._transparentCullingResources.drawCallDatas ++ expanded.transparentDrawCalls } })

/-- Modelled from the spec: the body of `ModelRenderer::AddInstance` is not
in the header.  "requires `modelID` to reference a prior successful
`LoadModel`.  Atomically claims an instance slot, writes the `InstanceData`
(copying offsets from the manifest) and the instance's world matrix, and,
for every draw-call range recorded in the manifest, emits one new
`DrawCallData` bound to this instance into the opaque and/or transparent
Culling Resources.  Also atomically increments a per-model instance
counter."  A model id that names no manifest is the unchecked misuse of the
spec and has no result. -/
def AddInstance (self : ModelRenderer MAX_VIEWS) (modelID : Nat) (placement : Placement) :
    Option (Nat × ModelRenderer MAX_VIEWS) :=
  match self._modelManifests[modelID]? with
  | none => none
  | some manifest =>
    let instanceID := self._instanceIndex
    let instanceData : InstanceData :=
      { modelID := modelID
        boneDeformOffset := 0
        boneInstanceDataOffset := 0
        textureTransformDeformOffset := 0
        textureTransformInstanceDataOffset := 0
        modelVertexOffset := manifest.vertexOffset
        animatedVertexOffset := 0 }
    let opaqueDrawCalls :=
      bindDrawCalls instanceID
        (drawCallRange self._opaqueCullingResources.drawCallDatas
          manifest.opaqueDrawCallOffset manifest.numOpaqueDrawCalls)
    let transparentDrawCalls :=
      bindDrawCalls instanceID
        (drawCallRange self._transparentCullingResources.drawCallDatas
          manifest.transparentDrawCallOffset manifest.numTransparentDrawCalls)
    some (instanceID, { self with
      _modelIDToNumInstances := self._modelIDToNumInstances.modify (· + 1) modelID
      _instanceDatas := self._instanceDatas ++ [instanceData]
      _instanceMatrices := self._instanceMatrices ++ [placement.worldMatrix]
      _instanceIndex := self._instanceIndex + 1
      _opaqueCullingResources :=
        { drawCallDatas := self._opaqueCullingResources.drawCallDatas ++ opaqueDrawCalls }
      _transparentCullingResources :=
        { drawCallDatas :=
            self._transparentCullingResources.drawCallDatas ++ transparentDrawCalls } })

/-- Modelled from the spec: the culling passes are GPU work whose "results
are read back into `_numSurvivingDrawCalls[viewID]` for stats", and the
occluder pass "tracks `numOccluderDrawCalls` for stats".  A frame replaces
the two statistics members and nothing else. -/
def readBackStats (self : ModelRenderer MAX_VIEWS) (numOccluderDrawCalls : Nat)
    (numSurvivingDrawCalls : Mathlib.Vector Nat MAX_VIEWS) : ModelRenderer MAX_VIEWS :=
  { self with
    _numOccluderDrawCalls := toU32 numOccluderDrawCalls
    _numSurvivingDrawCalls := numSurvivingDrawCalls.map toU32 }

/-- The renderer states a client can produce: construction, then any number
of `LoadModel`, successful `AddInstance`, `Clear` and frames.  `Reserve`,
`SyncToGPU` and `Update` act on physical capacity, on device memory and on
nothing, none of which the tables and counters carry. -/
inductive Reachable : ModelRenderer MAX_VIEWS → Prop
  | construct : Reachable (init MAX_VIEWS)
  | loadModel {s : ModelRenderer MAX_VIEWS} (name : String) (model : ComplexModel) :
      Reachable s → Reachable (LoadModel s name model).2
  | addInstance {s t : ModelRenderer MAX_VIEWS} (modelID : Nat) (placement : Placement)
      (instanceID : Nat) :
      Reachable s → AddInstance s modelID placement = some (instanceID, t) → Reachable t
  | clear {s : ModelRenderer MAX_VIEWS} : Reachable s → Reachable (Clear s).2
  | frame {s : ModelRenderer MAX_VIEWS} (numOccluderDrawCalls : Nat)
      (numSurvivingDrawCalls : Mathlib.Vector Nat MAX_VIEWS) :
      Reachable s → Reachable (readBackStats s numOccluderDrawCalls numSurvivingDrawCalls)

end ModelRenderer

/-! ## The message loop of `main` (main.cpp, lines 11-64) -/

/-- `MessageOutbound::Type`.  The enumeration is declared in
`Game/Application/Message.h`; `main` names `Invalid`, `Print`, `Pong` and
`Exit`, and its `default:` branch takes every other enumerator. -/
inductive MessageOutboundType where
  | Invalid
  | Print
  | Pong
  | Exit
  | Other (tag : Nat)
  deriving DecidableEq, Repr

/-- `MessageOutbound`, with the two members `main` reads. -/
structure MessageOutbound where
  type : MessageOutboundType
  data : String
  deriving DecidableEq, Repr

/-- What the main thread does, in order. -/
inductive Event where
  | started (startInSeparateThread : Bool)
  | dequeued (message : MessageOutbound)
  | printed (text : String)
  | commandHandled (command : String)
  deriving DecidableEq, Repr

/-- What the other threads offer during one pass through the outer loop:
`messages` are the messages `app.TryGetMessageOutbound` yields, oldest first,
before it returns `false`; `command` is the console line when
`future.wait_for(50 ms)` finds the future ready. -/
structure Iteration where
  messages : List MessageOutbound
  command : Option String
  deriving DecidableEq, Repr

/-- The body of the inner `while`, for one dequeued message: the new value of
`shouldExit` and what was printed.  `assert` is the macro of `<cassert>`:
with `NDEBUG` it expands to nothing, without it a false condition aborts the
process, and there is no result. -/
def handleMessage (NDEBUG : Bool) (message : MessageOutbound) (shouldExit : Bool) :
    Option (Bool × List Event) :=
  if !NDEBUG && message.type == MessageOutboundType.Invalid then none
  else
    match message.type with
    | MessageOutboundType.Print => some (shouldExit, [Event.printed message.data])
    | MessageOutboundType.Pong =>
      some (shouldExit, [Event.printed "Application Thread -> Main Thread : Pong"])
    | MessageOutboundType.Exit => some (true, [])
    | _ => some (shouldExit, [])

/-- `while (app.TryGetMessageOutbound(message)) ...`: every message on offer
is dequeued and handled in turn; the `break` of a `case` leaves the `switch`
only. -/
def pumpMessages (NDEBUG : Bool) :
    List MessageOutbound → Bool → List Event → Option (Bool × List Event)
  | [], shouldExit, log => some (shouldExit, log)
  | message :: queue, shouldExit, log =>
    match handleMessage NDEBUG message shouldExit with
    | none => none
    | some (shouldExit', events) =>
      pumpMessages NDEBUG queue shouldExit' (log ++ Event.dequeued message :: events)

/-- How one pass through the outer `while (true)` ends. -/
inductive Step where
  | leave (log : List Event)
  | again (log : List Event)
  | abort
  deriving DecidableEq, Repr

/-- One pass through the outer loop: `shouldExit = false`, the inner loop,
`if (shouldExit) break;`, then the console command if the future is ready. -/
def iteration (NDEBUG : Bool) (it : Iteration) (log : List Event) : Step :=
  match pumpMessages NDEBUG it.messages false log with
  | none => Step.abort
  | some (true, log') => Step.leave log'
  | some (false, log') =>
    match it.command with
    | some command => Step.again (log' ++ [Event.commandHandled command])
    | none => Step.again log'

/-- How a run of `main` stands after the passes it was given. -/
inductive Outcome where
  | returned (code : Int) (log : List Event)
  | aborted
  | running (log : List Event)
  deriving DecidableEq, Repr

/-- `while (true) ...` followed by `return 0;`, over the passes on offer. -/
def mainLoop (NDEBUG : Bool) : List Iteration → List Event → Outcome
  | [], log => Outcome.running log
  | it :: rest, log =>
    match iteration NDEBUG it log with
    | Step.abort => Outcome.aborted
    | Step.leave log' => Outcome.returned 0 log'
    | Step.again log' => mainLoop NDEBUG rest log'

/-- `i32 main()`: `app.Start(true)`, then the loop. -/
def main (NDEBUG : Bool) (schedule : List Iteration) : Outcome :=
  mainLoop NDEBUG schedule [Event.started true]

/-- The messages of type `Exit` among those dequeued according to a log. -/
def dequeuedExits (log : List Event) : List MessageOutbound :=
  log.filterMap fun e =>
    match e with
    | Event.dequeued m => if m.type = MessageOutboundType.Exit then some m else none
    | _ => none

/-- The messages dequeued according to a log, oldest first. -/
def dequeuedMessages (log : List Event) : List MessageOutbound :=
  log.filterMap fun e =>
    match e with
    | Event.dequeued m => some m
    | _ => none

/-- The console commands handled according to a log, oldest first. -/
def handledCommands (log : List Event) : List String :=
  log.filterMap fun e =>
    match e with
    | Event.commandHandled c => some c
    | _ => none

/-- What handling one message prints: the data of a `Print`, the fixed line
of a `Pong`, nothing otherwise. -/
def printedBy (message : MessageOutbound) : List Event :=
  match message.type with
  | MessageOutboundType.Print => [Event.printed message.data]
  | MessageOutboundType.Pong => [Event.printed "Application Thread -> Main Thread : Pong"]
  | _ => []

/-- The log of dequeuing and handling every message of a list in turn. -/
def handledLog : List MessageOutbound → List Event
  | [] => []
  | message :: rest => Event.dequeued message :: (printedBy message ++ handledLog rest)

/-- The `assert` of the inner loop holds for every message of the list, or
is compiled out. -/
def AssertsHold (NDEBUG : Bool) (messages : List MessageOutbound) : Prop :=
  NDEBUG = true ∨ ∀ m ∈ messages, m.type ≠ MessageOutboundType.Invalid

/-- Some message of the list has type `Exit`. -/
def HasExit (messages : List MessageOutbound) : Prop :=
  ∃ m ∈ messages, m.type = MessageOutboundType.Exit

/-- The log of handling the console command of a pass, if there is one. -/
def commandLog : Option String → List Event
  | some command => [Event.commandHandled command]
  | none => []

/-! ## Sample data -/

/-- The model of the spec's scenario: "Chair", 10 vertices, 12 indices and
one opaque draw call with one textured material slot. -/
def chair : ComplexModel :=
  { vertices := (List.range 10).map Vertex.mk
    indices := [0, 1, 2, 2, 3, 0, 4, 5, 6, 6, 7, 4]
    submeshes :=
      [{ isTransparent := false
         materialSlots :=
           [{ data := 1, materialType := 2, isUnlit := false
              textures := [some 7, none], textureTransforms := [] }] }] }

/-- A second model: 4 vertices, 6 indices, one opaque and one transparent
draw call. -/
def window : ComplexModel :=
  { vertices := (List.range 4).map Vertex.mk
    indices := [0, 1, 2, 2, 3, 0]
    submeshes :=
      [{ isTransparent := true
         materialSlots :=
           [{ data := 3, materialType := 1, isUnlit := true
              textures := [some 9], textureTransforms := [some 5] }] },
       { isTransparent := false, materialSlots := [] }] }

/-- The manifest `LoadModel("Chair")` records on an empty renderer. -/
def chairManifest : ModelManifest :=
  { debugName := "Chair", opaqueDrawCallOffset := 0, numOpaqueDrawCalls := 1,
    transparentDrawCallOffset := 0, numTransparentDrawCalls := 0,
    vertexOffset := 0, numVertices := 10, indexOffset := 0, numIndices := 12 }

/-- The manifest `LoadModel("Window")` records after "Chair". -/
def windowManifest : ModelManifest :=
  { debugName := "Window", opaqueDrawCallOffset := 1, numOpaqueDrawCalls := 1,
    transparentDrawCallOffset := 0, numTransparentDrawCalls := 1,
    vertexOffset := 10, numVertices := 4, indexOffset := 12, numIndices := 6 }

/-- A renderer with four views after `LoadModel("Chair")`. -/
def oneModel : ModelRenderer 4 :=
  (ModelRenderer.LoadModel (ModelRenderer.init 4) "Chair" chair).2

/-- A renderer with four views after `LoadModel("Chair")` and
`LoadModel("Window")`. -/
def twoModels : ModelRenderer 4 :=
  (ModelRenderer.LoadModel oneModel "Window" window).2

/-- A renderer with four views after one frame's statistics were read
back. -/
def afterFrame : ModelRenderer 4 :=
  ModelRenderer.readBackStats (ModelRenderer.init 4) 3 ⟨[5, 6, 7, 8], rfl⟩

/-- The renderer `afterFrame` with the chair loaded as well. -/
def afterFrameLoaded : ModelRenderer 4 :=
  (ModelRenderer.LoadModel afterFrame "Chair" chair).2

/-- A pass that sees `Pong`, `Exit` and a late `Print`, with a console line
ready. -/
def exitPass : Iteration :=
  { messages :=
      [⟨MessageOutboundType.Pong, ""⟩, ⟨MessageOutboundType.Exit, ""⟩,
       ⟨MessageOutboundType.Print, "bye"⟩]
    command := some "late" }

/-- A pass that sees `Exit` and then a message of type `Invalid`. -/
def exitThenInvalidPass : Iteration :=
  { messages := [⟨MessageOutboundType.Exit, ""⟩, ⟨MessageOutboundType.Invalid, ""⟩]
    command := none }

/-- A pass that sees one `Print`, with a console line ready. -/
def printPass : Iteration :=
  { messages := [⟨MessageOutboundType.Print, "hello"⟩], command := some "ping" }

/-! ## Invariants of the renderer tables -/

/-- `x` lies in the half-open range `[offset, offset + count)`. -/
def InRange (offset count x : Nat) : Prop :=
  offset ≤ x ∧ x < offset + count

/-- Two half-open ranges share no element. -/
def RangesDisjoint (offset₁ count₁ offset₂ count₂ : Nat) : Prop :=
  ∀ x, ¬ (InRange offset₁ count₁ x ∧ InRange offset₂ count₂ x)

/-- The ranges `[offset m, offset m + count m)` of the manifests of a table
follow one another in table order and end at or below `bound`. -/
def RangesOrdered (offset count : ModelManifest → Nat) (bound : Nat)
    (manifests : List ModelManifest) : Prop :=
  manifests.Pairwise (fun a b => offset a + count a ≤ offset b) ∧
  ∀ m ∈ manifests, offset m + count m ≤ bound

/-- Every draw call in the range a manifest records carries the id of that
manifest. -/
def TemplatesTagged (offset count : ModelManifest → Nat) (table : List DrawCallData)
    (manifests : List ModelManifest) : Prop :=
  ∀ k m, manifests[k]? = some m →
    ∀ d ∈ drawCallRange table (offset m) (count m), d.modelID = k

namespace ModelRenderer

variable {MAX_VIEWS : Nat}

/-- What the operations keep true of the tables and counters. -/
structure Consistent (s : ModelRenderer MAX_VIEWS) : Prop where
  manifestsLength : s._modelManifests.length = s._modelManifestsIndex
  instancesLength : s._instanceDatas.length = s._instanceIndex
  matricesLength : s._instanceMatrices.length = s._instanceIndex
  vertexRanges :
    RangesOrdered (·.vertexOffset) (·.numVertices) s._verticesIndex s._modelManifests
  indexRanges :
    RangesOrdered (·.indexOffset) (·.numIndices) s._indicesIndex s._modelManifests
  opaqueRanges :
    RangesOrdered (·.opaqueDrawCallOffset) (·.numOpaqueDrawCalls)
      s._opaqueCullingResources.drawCallDatas.length s._modelManifests
  transparentRanges :
    RangesOrdered (·.transparentDrawCallOffset) (·.numTransparentDrawCalls)
      s._transparentCullingResources.drawCallDatas.length s._modelManifests
  opaqueTemplates :
    TemplatesTagged (·.opaqueDrawCallOffset) (·.numOpaqueDrawCalls)
      s._opaqueCullingResources.drawCallDatas s._modelManifests
  transparentTemplates :
    TemplatesTagged (·.transparentDrawCallOffset) (·.numTransparentDrawCalls)
      s._transparentCullingResources.drawCallDatas s._modelManifests

end ModelRenderer

/-! ## Theorems: constants and texture units -/

/-- C6: the sentinel constants have the values `0`, `65535 = 2^16 - 1` (the
largest value a 16-bit field holds, kept whole by a narrowing to `u16`,
although the constant is a `u32`) and `255 = 2^8 - 1`. -/
theorem sentinel_constants_exact :
    MODEL_INVALID_TEXTURE_ID = 0 ∧
    MODEL_INVALID_TEXTURE_TRANSFORM_ID = 65535 ∧
    MODEL_INVALID_TEXTURE_TRANSFORM_ID = 2 ^ 16 - 1 ∧
    toU16 MODEL_INVALID_TEXTURE_TRANSFORM_ID = MODEL_INVALID_TEXTURE_TRANSFORM_ID ∧
    (∀ n : Nat, toU16 n ≤ MODEL_INVALID_TEXTURE_TRANSFORM_ID) ∧
    MODEL_INVALID_TEXTURE_UNIT_INDEX = 255 ∧
    MODEL_INVALID_TEXTURE_UNIT_INDEX = 2 ^ 8 - 1 := by
  refine ⟨by decide, by decide, by decide, by decide, ?_, by decide, by decide⟩
  intro n
  have h : MODEL_INVALID_TEXTURE_TRANSFORM_ID = 65535 := by decide
  rw [h]
  unfold toU16
  omega

/-- C7: every `TextureUnit` has exactly two texture-id slots and exactly two
texture-transform-id slots, and in a unit as constructed each slot holds its
sentinel; the 32-bit transform sentinel stored in the 16-bit slot is the
sentinel itself. -/
theorem texture_unit_default_slots (t : TextureUnit) (i : Fin 2) :
    t.textureIds.toList.length = 2 ∧
    t.textureTransformIds.toList.length = 2 ∧
    TextureUnit.init.textureIds.get i = MODEL_INVALID_TEXTURE_ID ∧
    TextureUnit.init.textureTransformIds.get i = toU16 MODEL_INVALID_TEXTURE_TRANSFORM_ID ∧
    TextureUnit.init.textureTransformIds.get i = MODEL_INVALID_TEXTURE_TRANSFORM_ID := by
  refine ⟨t.textureIds.toList_length, t.textureTransformIds.toList_length, ?_, ?_, ?_⟩ <;>
    fin_cases i <;> decide

/-! ## Theorems: statistics accessors -/

namespace ModelRenderer

variable {MAX_VIEWS : Nat}

/-- C8: in every renderer state `GetNumDrawCalls` and `GetNumTriangles`
return `0` and leave the state as it was. -/
theorem stat_stubs_return_zero (s : ModelRenderer MAX_VIEWS) :
    GetNumDrawCalls s = (0, s) ∧ GetNumTriangles s = (0, s) :=
  ⟨rfl, rfl⟩

/-- A read of `_numSurvivingDrawCalls` inside the array yields its element. -/
theorem surviving_read_in_bounds (s : ModelRenderer MAX_VIEWS) (viewID : Nat)
    (h : viewID < MAX_VIEWS) :
    ∃ n, s._numSurvivingDrawCalls.toList[viewID]? = some n := by
  have hlen : viewID < s._numSurvivingDrawCalls.toList.length := by
    rw [Mathlib.Vector.toList_length]; exact h
  exact ⟨_, List.getElem?_eq_getElem hlen⟩

/-- A read of `_numSurvivingDrawCalls` at or past `MAX_VIEWS` yields nothing. -/
theorem surviving_read_out_of_bounds (s : ModelRenderer MAX_VIEWS) (viewID : Nat)
    (h : MAX_VIEWS ≤ viewID) :
    s._numSurvivingDrawCalls.toList[viewID]? = none := by
  apply List.getElem?_eq_none
  rw [Mathlib.Vector.toList_length]; exact h

/-- C2, as the claim states it, fails: with an array of four views, the
reads at `viewID = 4` and at the largest `u32` are outside the array, and
neither accessor has a result. -/
theorem view_read_past_max_views :
    GetNumSurvivingDrawCalls (init 4) 4 = none ∧
    GetNumSurvivingGeometryTriangles 2 (init 4) 4 = none ∧
    GetNumSurvivingDrawCalls (init 4) (2 ^ 32 - 1) = none ∧
    GetNumSurvivingGeometryTriangles 2 (init 4) (2 ^ 32 - 1) = none := by
  refine ⟨?_, ?_, ?_, ?_⟩ <;>
    simp [GetNumSurvivingDrawCalls, GetNumSurvivingGeometryTriangles,
      surviving_read_out_of_bounds]

/-- C2, amended: the two per-view accessors have a result exactly when
`viewID < MAX_VIEWS`, and then they leave the state as it was. -/
theorem view_read_defined_iff (CELL_NUM_TRIANGLES : Nat) (s : ModelRenderer MAX_VIEWS)
    (viewID : Nat) :
    ((∃ n, GetNumSurvivingDrawCalls s viewID = some (n, s)) ↔ viewID < MAX_VIEWS) ∧
    ((∃ n, GetNumSurvivingGeometryTriangles CELL_NUM_TRIANGLES s viewID = some (n, s)) ↔
      viewID < MAX_VIEWS) ∧
    (GetNumSurvivingDrawCalls s viewID = none ↔ MAX_VIEWS ≤ viewID) ∧
    (GetNumSurvivingGeometryTriangles CELL_NUM_TRIANGLES s viewID = none ↔
      MAX_VIEWS ≤ viewID) := by
  rcases Nat.lt_or_ge viewID MAX_VIEWS with h | h
  · obtain ⟨n, hn⟩ := surviving_read_in_bounds s viewID h
    have h' : ¬ MAX_VIEWS ≤ viewID := Nat.not_le.mpr h
    simp [GetNumSurvivingDrawCalls, GetNumSurvivingGeometryTriangles, hn, h, h']
  · have hn := surviving_read_out_of_bounds s viewID h
    have h' : ¬ viewID < MAX_VIEWS := Nat.not_lt.mpr h
    simp [GetNumSurvivingDrawCalls, GetNumSurvivingGeometryTriangles, hn, h, h']

/-- C9: the triangle statistics are the draw-call statistics times
`CELL_NUM_TRIANGLES` modulo `2^32`, for the occluders in every state and for
the survivors of every view below `MAX_VIEWS`; they are `0` on a renderer as
constructed; and two states with the same `_numOccluderDrawCalls` and
`_numSurvivingDrawCalls` report the same triangles whatever models they
hold. -/
theorem triangle_stats_scale_draw_calls (CELL_NUM_TRIANGLES : Nat)
    (s t : ModelRenderer MAX_VIEWS) (viewID : Nat) (hview : viewID < MAX_VIEWS)
    (hocc : t._numOccluderDrawCalls = s._numOccluderDrawCalls)
    (hsurv : t._numSurvivingDrawCalls = s._numSurvivingDrawCalls) :
    (GetNumOccluderTriangles CELL_NUM_TRIANGLES s).1 =
      ((GetNumOccluderDrawCalls s).1 * CELL_NUM_TRIANGLES) % 2 ^ 32 ∧
    (∃ n, GetNumSurvivingDrawCalls s viewID = some (n, s) ∧
      GetNumSurvivingGeometryTriangles CELL_NUM_TRIANGLES s viewID =
        some ((n * CELL_NUM_TRIANGLES) % 2 ^ 32, s)) ∧
    (GetNumOccluderTriangles CELL_NUM_TRIANGLES (init MAX_VIEWS)).1 = 0 ∧
    GetNumSurvivingGeometryTriangles CELL_NUM_TRIANGLES (init MAX_VIEWS) viewID =
      some (0, init MAX_VIEWS) ∧
    (GetNumOccluderTriangles CELL_NUM_TRIANGLES t).1 =
      (GetNumOccluderTriangles CELL_NUM_TRIANGLES s).1 ∧
    (GetNumSurvivingGeometryTriangles CELL_NUM_TRIANGLES t viewID).map Prod.fst =
      (GetNumSurvivingGeometryTriangles CELL_NUM_TRIANGLES s viewID).map Prod.fst := by
  obtain ⟨n, hn⟩ := surviving_read_in_bounds s viewID hview
  have hinit : (init MAX_VIEWS)._numSurvivingDrawCalls.toList[viewID]? = some 0 := by
    simp [init, Mathlib.Vector.replicate, Mathlib.Vector.toList, hview]
  refine ⟨rfl, ⟨n, ?_, ?_⟩, ?_, ?_, ?_, ?_⟩
  · simp [GetNumSurvivingDrawCalls, hn]
  · simp [GetNumSurvivingGeometryTriangles, hn, toU32]
  · simp [GetNumOccluderTriangles, init, toU32]
  · simp [GetNumSurvivingGeometryTriangles, hinit, toU32]
  · simp [GetNumOccluderTriangles, hocc]
  · simp [GetNumSurvivingGeometryTriangles, hsurv]
    cases s._numSurvivingDrawCalls.toList[viewID]? <;> rfl

end ModelRenderer

/-! ## Lemmas on ranges and draw-call tables -/

theorem rangesOrdered_nil (offset count : ModelManifest → Nat) (bound : Nat) :
    RangesOrdered offset count bound [] :=
  ⟨List.Pairwise.nil, fun _ h => absurd h (List.not_mem_nil _)⟩

theorem rangesOrdered_mono {offset count : ModelManifest → Nat} {bound bound' : Nat}
    {manifests : List ModelManifest} (h : RangesOrdered offset count bound manifests)
    (hle : bound ≤ bound') : RangesOrdered offset count bound' manifests :=
  ⟨h.1, fun m hm => Nat.le_trans (h.2 m hm) hle⟩

theorem rangesOrdered_append {offset count : ModelManifest → Nat} {bound : Nat}
    {manifests : List ModelManifest} (h : RangesOrdered offset count bound manifests)
    (m : ModelManifest) (hoff : offset m = bound) :
    RangesOrdered offset count (bound + count m) (manifests ++ [m]) := by
  constructor
  · rw [List.pairwise_append]
    refine ⟨h.1, List.pairwise_singleton _ _, ?_⟩
    intro a ha b hb
    rw [List.mem_singleton] at hb
    subst hb
    have := h.2 a ha
    omega
  · intro a ha
    rw [List.mem_append, List.mem_singleton] at ha
    rcases ha with ha | ha
    · have := h.2 a ha
      omega
    · subst ha
      omega

theorem rangesOrdered_disjoint {offset count : ModelManifest → Nat} {bound : Nat}
    {manifests : List ModelManifest} (h : RangesOrdered offset count bound manifests)
    {a b : Nat} {ma mb : ModelManifest} (hab : a ≠ b)
    (ha : manifests[a]? = some ma) (hb : manifests[b]? = some mb) :
    RangesDisjoint (offset ma) (count ma) (offset mb) (count mb) := by
  have hpw := List.pairwise_iff_getElem.mp h.1
  obtain ⟨hla, hea⟩ := List.getElem?_eq_some.mp ha
  obtain ⟨hlb, heb⟩ := List.getElem?_eq_some.mp hb
  intro x hx
  obtain ⟨⟨h1, h2⟩, h3, h4⟩ := hx
  rcases Nat.lt_or_gt_of_ne hab with hlt | hgt
  · have := hpw a b hla hlb hlt
    rw [hea, heb] at this
    omega
  · have := hpw b a hlb hla hgt
    rw [hea, heb] at this
    omega

theorem drawCallRange_append_left (table ext : List DrawCallData) (offset count : Nat)
    (h : offset + count ≤ table.length) :
    drawCallRange (table ++ ext) offset count = drawCallRange table offset count := by
  unfold drawCallRange
  rw [List.drop_append_of_le_length (by omega)]
  rw [List.take_append_of_le_length (by rw [List.length_drop]; omega)]

theorem drawCallRange_append_right (table ext : List DrawCallData) :
    drawCallRange (table ++ ext) table.length ext.length = ext := by
  unfold drawCallRange
  rw [List.drop_left, List.take_length]

theorem templatesTagged_extend {offset count : ModelManifest → Nat}
    {table : List DrawCallData} {manifests : List ModelManifest}
    (h : TemplatesTagged offset count table manifests)
    (hr : RangesOrdered offset count table.length manifests) (ext : List DrawCallData) :
    TemplatesTagged offset count (table ++ ext) manifests := by
  intro k m hk d hd
  have hm : m ∈ manifests := List.getElem?_mem hk
  rw [drawCallRange_append_left _ _ _ _ (hr.2 m hm)] at hd
  exact h k m hk d hd

theorem templatesTagged_append {offset count : ModelManifest → Nat}
    {table : List DrawCallData} {manifests : List ModelManifest}
    (h : TemplatesTagged offset count table manifests)
    (hr : RangesOrdered offset count table.length manifests)
    (m : ModelManifest) (ext : List DrawCallData)
    (hoff : offset m = table.length) (hcount : count m = ext.length)
    (hext : ∀ d ∈ ext, d.modelID = manifests.length) :
    TemplatesTagged offset count (table ++ ext) (manifests ++ [m]) := by
  intro k m' hk d hd
  rcases Nat.lt_or_ge k manifests.length with hlt | hge
  · rw [List.getElem?_append_left hlt] at hk
    exact templatesTagged_extend h hr ext k m' hk d hd
  · rw [List.getElem?_append_right hge] at hk
    have hk0 : k - manifests.length = 0 := by
      by_contra hne
      have : [m][k - manifests.length]? = none := by
        apply List.getElem?_eq_none
        simp only [List.length_singleton]
        omega
      rw [this] at hk
      exact absurd hk (by simp)
    rw [hk0] at hk
    simp only [List.getElem?_cons_zero, Option.some.injEq] at hk
    subst hk
    rw [hoff, hcount, drawCallRange_append_right] at hd
    have := hext d hd
    omega

theorem expandSubmeshes_modelID (modelID : Nat) (submeshes : List Submesh)
    (textureUnitIndex : Nat) :
    (∀ d ∈ (expandSubmeshes modelID submeshes textureUnitIndex).opaqueDrawCalls,
      d.modelID = modelID) ∧
    (∀ d ∈ (expandSubmeshes modelID submeshes textureUnitIndex).transparentDrawCalls,
      d.modelID = modelID) := by
  induction submeshes generalizing textureUnitIndex with
  | nil => simp [expandSubmeshes]
  | cons sm rest ih =>
    have ih' := ih (textureUnitIndex + (sm.materialSlots.map buildTextureUnit).length)
    unfold expandSubmeshes
    by_cases ht : sm.isTransparent
    · simp only [ht, if_true]
      refine ⟨ih'.1, ?_⟩
      intro d hd
      rcases List.mem_cons.mp hd with hd | hd
      · subst hd; rfl
      · exact ih'.2 d hd
    · simp only [ht]
      refine ⟨?_, ih'.2⟩
      intro d hd
      rcases List.mem_cons.mp hd with hd | hd
      · subst hd; rfl
      · exact ih'.1 d hd

/-! ## The operations keep the tables consistent -/

namespace ModelRenderer

variable {MAX_VIEWS : Nat}

theorem consistent_init : Consistent (init MAX_VIEWS) where
  manifestsLength := rfl
  instancesLength := rfl
  matricesLength := rfl
  vertexRanges := rangesOrdered_nil _ _ _
  indexRanges := rangesOrdered_nil _ _ _
  opaqueRanges := rangesOrdered_nil _ _ _
  transparentRanges := rangesOrdered_nil _ _ _
  opaqueTemplates := fun k m hk => by simp [init] at hk
  transparentTemplates := fun k m hk => by simp [init] at hk

theorem consistent_Clear {s : ModelRenderer MAX_VIEWS} : Consistent (Clear s).2 where
  manifestsLength := rfl
  instancesLength := rfl
  matricesLength := rfl
  vertexRanges := rangesOrdered_nil _ _ _
  indexRanges := rangesOrdered_nil _ _ _
  opaqueRanges := rangesOrdered_nil _ _ _
  transparentRanges := rangesOrdered_nil _ _ _
  opaqueTemplates := fun k m hk => by simp [Clear] at hk
  transparentTemplates := fun k m hk => by simp [Clear] at hk

theorem consistent_readBackStats {s : ModelRenderer MAX_VIEWS} (h : Consistent s)
    (numOccluderDrawCalls : Nat) (numSurvivingDrawCalls : Mathlib.Vector Nat MAX_VIEWS) :
    Consistent (readBackStats s numOccluderDrawCalls numSurvivingDrawCalls) where
  manifestsLength := h.manifestsLength
  instancesLength := h.instancesLength
  matricesLength := h.matricesLength
  vertexRanges := h.vertexRanges
  indexRanges := h.indexRanges
  opaqueRanges := h.opaqueRanges
  transparentRanges := h.transparentRanges
  opaqueTemplates := h.opaqueTemplates
  transparentTemplates := h.transparentTemplates

theorem consistent_LoadModel {s : ModelRenderer MAX_VIEWS} (h : Consistent s)
    (name : String) (model : ComplexModel) : Consistent (LoadModel s name model).2 := by
  unfold LoadModel
  split
  · exact h
  · have htag := expandSubmeshes_modelID s._modelManifestsIndex model.submeshes
      s._textureUnitIndex
    have hidx := h.manifestsLength
    refine
      { manifestsLength := ?_
        instancesLength := h.instancesLength
        matricesLength := h.matricesLength
        vertexRanges := rangesOrdered_append h.vertexRanges _ rfl
        indexRanges := rangesOrdered_append h.indexRanges _ rfl
        opaqueRanges := ?_
        transparentRanges := ?_
        opaqueTemplates := templatesTagged_append h.opaqueTemplates h.opaqueRanges _ _
          rfl rfl (fun d hd => (htag.1 d hd).trans hidx.symm)
        transparentTemplates := templatesTagged_append h.transparentTemplates
          h.transparentRanges _ _ rfl rfl (fun d hd => (htag.2 d hd).trans hidx.symm) }
    · show (s._modelManifests ++ [_]).length = s._modelManifestsIndex + 1
      rw [List.length_append, h.manifestsLength]
      rfl
    · show RangesOrdered _ _ (List.length (_ ++ _)) _
      rw [List.length_append]
      exact rangesOrdered_append h.opaqueRanges _ rfl
    · show RangesOrdered _ _ (List.length (_ ++ _)) _
      rw [List.length_append]
      exact rangesOrdered_append h.transparentRanges _ rfl

theorem consistent_AddInstance {s t : ModelRenderer MAX_VIEWS} (h : Consistent s)
    {modelID : Nat} {placement : Placement} {instanceID : Nat}
    (hadd : AddInstance s modelID placement = some (instanceID, t)) : Consistent t := by
  unfold AddInstance at hadd
  split at hadd
  · exact absurd hadd (by simp)
  · simp only [Option.some.injEq, Prod.mk.injEq] at hadd
    obtain ⟨-, rfl⟩ := hadd
    refine
      { manifestsLength := h.manifestsLength
        instancesLength := ?_
        matricesLength := ?_
        vertexRanges := h.vertexRanges
        indexRanges := h.indexRanges
        opaqueRanges := ?_
        transparentRanges := ?_
        opaqueTemplates := templatesTagged_extend h.opaqueTemplates h.opaqueRanges _
        transparentTemplates :=
          templatesTagged_extend h.transparentTemplates h.transparentRanges _ }
    · show (s._instanceDatas ++ [_]).length = s._instanceIndex + 1
      rw [List.length_append, h.instancesLength]
      rfl
    · show (s._instanceMatrices ++ [_]).length = s._instanceIndex + 1
      rw [List.length_append, h.matricesLength]
      rfl
    · show RangesOrdered _ _ (List.length (_ ++ _)) _
      rw [List.length_append]
      exact rangesOrdered_mono h.opaqueRanges (Nat.le_add_right _ _)
    · show RangesOrdered _ _ (List.length (_ ++ _)) _
      rw [List.length_append]
      exact rangesOrdered_mono h.transparentRanges (Nat.le_add_right _ _)

theorem consistent_of_reachable {s : ModelRenderer MAX_VIEWS} (h : Reachable s) :
    Consistent s := by
  induction h with
  | construct => exact consistent_init
  | loadModel name model _ ih => exact consistent_LoadModel ih name model
  | addInstance modelID placement instanceID _ hadd ih => exact consistent_AddInstance ih hadd
  | clear _ _ => exact consistent_Clear
  | frame o v _ ih => exact consistent_readBackStats ih o v

end ModelRenderer

/-! ## Theorems: loading, instancing and clearing -/

namespace ModelRenderer

variable {MAX_VIEWS : Nat}

/-- C1: in every reachable renderer state, a second `LoadModel` of the same
name returns the model id the first call returned and leaves the whole
renderer state, and so the manifest table, the vertex, index and
texture-unit buffers and their index counters, as the first call left it. -/
theorem LoadModel_idempotent (s : ModelRenderer MAX_VIEWS) (hs : Reachable s)
    (name : String) (model : ComplexModel) :
    LoadModel (LoadModel s name model).2 name model =
      ((LoadModel s name model).1, (LoadModel s name model).2) := by
  have hlen := (consistent_of_reachable hs).manifestsLength
  cases hfind : s._modelManifests.findIdx? (fun m => m.debugName == name) with
  | some i =>
    have h1 : LoadModel s name model = (i, s) := by simp only [LoadModel, hfind]
    rw [h1]
    exact h1
  | none =>
    have h1 : (LoadModel s name model).1 = s._modelManifestsIndex := by
      simp only [LoadModel, hfind]
    have h2 : (LoadModel s name model).2._modelManifests.findIdx?
        (fun m => m.debugName == name) = some s._modelManifestsIndex := by
      simp only [LoadModel, hfind]
      rw [List.findIdx?_append, hfind]
      simp [hlen]
    rw [h1]
    generalize LoadModel s name model = r at h2
    simp only [LoadModel, h2]

/-- C4: in every reachable renderer state the vertex, index, opaque
draw-call and transparent draw-call ranges of the manifests of two distinct
model ids share no element. -/
theorem manifest_ranges_disjoint (s : ModelRenderer MAX_VIEWS) (hs : Reachable s)
    (a b : Nat) (ma mb : ModelManifest) (hab : a ≠ b)
    (ha : (GetModelManifests s).1[a]? = some ma)
    (hb : (GetModelManifests s).1[b]? = some mb) :
    RangesDisjoint ma.vertexOffset ma.numVertices mb.vertexOffset mb.numVertices ∧
    RangesDisjoint ma.indexOffset ma.numIndices mb.indexOffset mb.numIndices ∧
    RangesDisjoint ma.opaqueDrawCallOffset ma.numOpaqueDrawCalls
      mb.opaqueDrawCallOffset mb.numOpaqueDrawCalls ∧
    RangesDisjoint ma.transparentDrawCallOffset ma.numTransparentDrawCalls
      mb.transparentDrawCallOffset mb.numTransparentDrawCalls := by
  have h := consistent_of_reachable hs
  exact ⟨rangesOrdered_disjoint h.vertexRanges hab ha hb,
    rangesOrdered_disjoint h.indexRanges hab ha hb,
    rangesOrdered_disjoint h.opaqueRanges hab ha hb,
    rangesOrdered_disjoint h.transparentRanges hab ha hb⟩

/-- C5: after `Clear` the manifests returned by `GetModelManifests` are
empty and every index counter is zero, and the next `LoadModel`, of any
name, returns model id `0`. -/
theorem Clear_resets (s : ModelRenderer MAX_VIEWS) (name : String) (model : ComplexModel) :
    (GetModelManifests (Clear s).2).1 = [] ∧
    (Clear s).2._modelManifestsIndex = 0 ∧
    (Clear s).2._verticesIndex = 0 ∧
    (Clear s).2._indicesIndex = 0 ∧
    (Clear s).2._instanceIndex = 0 ∧
    (Clear s).2._textureUnitIndex = 0 ∧
    (LoadModel (Clear s).2 name model).1 = 0 ∧
    (LoadModel (Clear s).2 "Chair" model).1 = 0 := by
  refine ⟨rfl, rfl, rfl, rfl, rfl, rfl, ?_, ?_⟩ <;>
    simp [LoadModel, Clear]

end ModelRenderer

/-! ## Theorems: the message loop -/

theorem handleMessage_result {NDEBUG : Bool} {message : MessageOutbound}
    {shouldExit shouldExit' : Bool} {events : List Event}
    (h : handleMessage NDEBUG message shouldExit = some (shouldExit', events)) :
    events = printedBy message ∧
    (shouldExit' = true ↔ shouldExit = true ∨ message.type = MessageOutboundType.Exit) := by
  unfold handleMessage at h
  split at h
  · exact absurd h (by simp)
  · unfold printedBy
    split at h <;>
      simp only [Option.some.injEq, Prod.mk.injEq] at h <;>
      obtain ⟨rfl, rfl⟩ := h <;> simp_all

theorem handleMessage_defined {NDEBUG : Bool} {message : MessageOutbound}
    (h : NDEBUG = true ∨ message.type ≠ MessageOutboundType.Invalid) (shouldExit : Bool) :
    ∃ r, handleMessage NDEBUG message shouldExit = some r := by
  unfold handleMessage
  have hc : (!NDEBUG && message.type == MessageOutboundType.Invalid) = false := by
    rcases h with h | h
    · simp [h]
    · simp [h]
  rw [hc]
  simp only [Bool.false_eq_true, if_false]
  split <;> exact ⟨_, rfl⟩

theorem pumpMessages_result {NDEBUG : Bool} (messages : List MessageOutbound) :
    ∀ (shouldExit shouldExit' : Bool) (log log' : List Event),
      pumpMessages NDEBUG messages shouldExit log = some (shouldExit', log') →
      log' = log ++ handledLog messages ∧
      (shouldExit' = true ↔ shouldExit = true ∨ HasExit messages) := by
  induction messages with
  | nil =>
    intro b b' log log' h
    simp only [pumpMessages, Option.some.injEq, Prod.mk.injEq] at h
    obtain ⟨rfl, rfl⟩ := h
    simp [handledLog, HasExit]
  | cons m rest ih =>
    intro b b' log log' h
    unfold pumpMessages at h
    split at h
    · exact absurd h (by simp)
    · rename_i b1 events hm
      obtain ⟨hev, hb1⟩ := handleMessage_result hm
      obtain ⟨hlog, hb'⟩ := ih _ _ _ _ h
      subst hev
      refine ⟨by rw [hlog]; simp [handledLog], ?_⟩
      rw [hb', hb1]
      unfold HasExit
      simp only [List.mem_cons, exists_eq_or_imp]
      tauto

theorem pumpMessages_defined {NDEBUG : Bool} (messages : List MessageOutbound)
    (h : AssertsHold NDEBUG messages) :
    ∀ (shouldExit : Bool) (log : List Event),
      ∃ r, pumpMessages NDEBUG messages shouldExit log = some r := by
  induction messages with
  | nil => intro b log; exact ⟨_, rfl⟩
  | cons m rest ih =>
    intro b log
    have hm : NDEBUG = true ∨ m.type ≠ MessageOutboundType.Invalid := by
      rcases h with h | h
      · exact Or.inl h
      · exact Or.inr (h m (List.mem_cons_self _ _))
    have hrest : AssertsHold NDEBUG rest := by
      rcases h with h | h
      · exact Or.inl h
      · exact Or.inr (fun x hx => h x (List.mem_cons_of_mem _ hx))
    obtain ⟨⟨b1, events⟩, hr⟩ := handleMessage_defined hm b
    unfold pumpMessages
    rw [hr]
    exact ih hrest _ _

theorem dequeuedMessages_handledLog (messages : List MessageOutbound) :
    dequeuedMessages (handledLog messages) = messages := by
  induction messages with
  | nil => rfl
  | cons m rest ih =>
    have hp : dequeuedMessages (printedBy m) = [] := by
      unfold printedBy dequeuedMessages
      split <;> rfl
    unfold dequeuedMessages at ih hp ⊢
    simp only [handledLog, List.filterMap_cons, List.filterMap_append, hp, ih, List.nil_append]

theorem handledCommands_handledLog (messages : List MessageOutbound) :
    handledCommands (handledLog messages) = [] := by
  induction messages with
  | nil => rfl
  | cons m rest ih =>
    have hp : handledCommands (printedBy m) = [] := by
      unfold printedBy handledCommands
      split <;> rfl
    unfold handledCommands at ih hp ⊢
    simp only [handledLog, List.filterMap_cons, List.filterMap_append, hp, ih, List.nil_append]

theorem dequeuedExits_handledLog {messages : List MessageOutbound} (h : HasExit messages) :
    dequeuedExits (handledLog messages) ≠ [] := by
  induction messages with
  | nil =>
    obtain ⟨m, hm, -⟩ := h
    exact absurd hm (List.not_mem_nil _)
  | cons m rest ih =>
    by_cases hx : m.type = MessageOutboundType.Exit
    · unfold dequeuedExits
      simp [handledLog, List.filterMap_cons, hx]
    · have hrest : HasExit rest := by
        obtain ⟨x, hmem, hxe⟩ := h
        rcases List.mem_cons.mp hmem with rfl | hmem
        · exact absurd hxe hx
        · exact ⟨x, hmem, hxe⟩
      have := ih hrest
      unfold dequeuedExits at this ⊢
      simp only [handledLog, List.filterMap_cons, List.filterMap_append, hx, if_false]
      intro hnil
      exact this (List.append_eq_nil.mp hnil).2

theorem iteration_leave {NDEBUG : Bool} {it : Iteration} {log log' : List Event}
    (h : iteration NDEBUG it log = Step.leave log') :
    HasExit it.messages ∧ log' = log ++ handledLog it.messages := by
  unfold iteration at h
  split at h
  · exact absurd h (by simp)
  · rename_i l hp
    obtain ⟨hlog, hb⟩ := pumpMessages_result _ _ _ _ _ hp
    simp only [Step.leave.injEq] at h
    subst h
    exact ⟨by simpa using hb, hlog⟩
  · split at h <;> exact absurd h (by simp)

theorem iteration_of_exit {NDEBUG : Bool} {it : Iteration} (log : List Event)
    (ha : AssertsHold NDEBUG it.messages) (hx : HasExit it.messages) :
    iteration NDEBUG it log = Step.leave (log ++ handledLog it.messages) := by
  obtain ⟨⟨b, l⟩, hp⟩ := pumpMessages_defined it.messages ha false log
  obtain ⟨hlog, hb⟩ := pumpMessages_result _ _ _ _ _ hp
  have hbt : b = true := hb.mpr (Or.inr hx)
  subst hbt
  subst hlog
  simp only [iteration, hp]

theorem iteration_of_no_exit {NDEBUG : Bool} {it : Iteration} (log : List Event)
    (ha : AssertsHold NDEBUG it.messages) (hx : ¬ HasExit it.messages) :
    iteration NDEBUG it log =
      Step.again (log ++ handledLog it.messages ++ commandLog it.command) := by
  obtain ⟨⟨b, l⟩, hp⟩ := pumpMessages_defined it.messages ha false log
  obtain ⟨hlog, hb⟩ := pumpMessages_result _ _ _ _ _ hp
  have hbf : b = false := by
    cases b
    · rfl
    · exact absurd (hb.mp rfl) (by simp [hx])
  subst hbf
  subst hlog
  simp only [iteration, hp]
  cases it.command <;> simp [commandLog]

theorem dequeuedExits_append (l₁ l₂ : List Event) :
    dequeuedExits (l₁ ++ l₂) = dequeuedExits l₁ ++ dequeuedExits l₂ := by
  unfold dequeuedExits
  exact List.filterMap_append _ _ _

theorem mainLoop_returned {NDEBUG : Bool} (schedule : List Iteration) :
    ∀ (log : List Event) (code : Int) (log' : List Event),
      mainLoop NDEBUG schedule log = Outcome.returned code log' →
      code = 0 ∧ dequeuedExits log' ≠ [] := by
  induction schedule with
  | nil => intro log code log' h; exact absurd h (by simp [mainLoop])
  | cons it rest ih =>
    intro log code log' h
    unfold mainLoop at h
    split at h
    · exact absurd h (by simp)
    · rename_i l hstep
      simp only [Outcome.returned.injEq] at h
      obtain ⟨rfl, rfl⟩ := h
      obtain ⟨hx, rfl⟩ := iteration_leave hstep
      refine ⟨rfl, ?_⟩
      rw [dequeuedExits_append]
      intro hnil
      exact dequeuedExits_handledLog hx (List.append_eq_nil.mp hnil).2
    · exact ih _ _ _ h

theorem mainLoop_returns {NDEBUG : Bool} (schedule : List Iteration)
    (ha : ∀ i ∈ schedule, AssertsHold NDEBUG i.messages)
    (hx : ∃ i ∈ schedule, HasExit i.messages) :
    ∀ log : List Event, ∃ log', mainLoop NDEBUG schedule log = Outcome.returned 0 log' := by
  induction schedule with
  | nil =>
    obtain ⟨i, hi, -⟩ := hx
    exact absurd hi (List.not_mem_nil _)
  | cons it rest ih =>
    intro log
    have hit := ha it (List.mem_cons_self _ _)
    by_cases hexit : HasExit it.messages
    · refine ⟨log ++ handledLog it.messages, ?_⟩
      unfold mainLoop
      rw [iteration_of_exit log hit hexit]
    · have hrest : ∃ i ∈ rest, HasExit i.messages := by
        obtain ⟨i, hi, hie⟩ := hx
        rcases List.mem_cons.mp hi with rfl | hi
        · exact absurd hie hexit
        · exact ⟨i, hi, hie⟩
      obtain ⟨log', hl⟩ := ih (fun i hi => ha i (List.mem_cons_of_mem _ hi)) hrest
        (log ++ handledLog it.messages ++ commandLog it.command)
      refine ⟨log', ?_⟩
      unfold mainLoop
      rw [iteration_of_no_exit log hit hexit]
      exact hl

theorem mainLoop_keeps_running {NDEBUG : Bool} (schedule : List Iteration)
    (ha : ∀ i ∈ schedule, AssertsHold NDEBUG i.messages)
    (hx : ∀ i ∈ schedule, ¬ HasExit i.messages) :
    ∀ log : List Event, ∃ log', mainLoop NDEBUG schedule log = Outcome.running log' := by
  induction schedule with
  | nil => intro log; exact ⟨log, rfl⟩
  | cons it rest ih =>
    intro log
    obtain ⟨log', hl⟩ := ih (fun i hi => ha i (List.mem_cons_of_mem _ hi))
      (fun i hi => hx i (List.mem_cons_of_mem _ hi))
      (log ++ handledLog it.messages ++ commandLog it.command)
    refine ⟨log', ?_⟩
    unfold mainLoop
    rw [iteration_of_no_exit log (ha it (List.mem_cons_self _ _)) (hx it (List.mem_cons_self _ _))]
    exact hl

theorem pumpMessages_abort (messages : List MessageOutbound)
    (h : ∃ m ∈ messages, m.type = MessageOutboundType.Invalid) :
    ∀ (shouldExit : Bool) (log : List Event),
      pumpMessages false messages shouldExit log = none := by
  induction messages with
  | nil =>
    obtain ⟨m, hm, -⟩ := h
    exact absurd hm (List.not_mem_nil _)
  | cons m rest ih =>
    intro b log
    by_cases hm : m.type = MessageOutboundType.Invalid
    · have hnone : handleMessage false m b = none := by simp [handleMessage, hm]
      unfold pumpMessages
      rw [hnone]
    · have hrest : ∃ x ∈ rest, x.type = MessageOutboundType.Invalid := by
        obtain ⟨x, hx, hxi⟩ := h
        rcases List.mem_cons.mp hx with rfl | hx
        · exact absurd hxi hm
        · exact ⟨x, hx, hxi⟩
      obtain ⟨⟨b1, events⟩, hr⟩ := handleMessage_defined (Or.inr hm) b
      unfold pumpMessages
      rw [hr]
      exact ih hrest _ _

theorem iteration_abort {NDEBUG : Bool} {it : Iteration} (log : List Event)
    (h : ¬ AssertsHold NDEBUG it.messages) : iteration NDEBUG it log = Step.abort := by
  unfold AssertsHold at h
  have hn : NDEBUG = false := by
    cases NDEBUG
    · rfl
    · exact absurd (Or.inl rfl) h
  subst hn
  have hinv : ∃ m ∈ it.messages, m.type = MessageOutboundType.Invalid := by
    by_contra hc
    exact h (Or.inr fun m hm hmi => hc ⟨m, hm, hmi⟩)
  simp only [iteration, pumpMessages_abort it.messages hinv]

/-- C10, as the claim states it, fails: without `NDEBUG`, a pass that
dequeues `Exit` and then a message of type `Invalid` does not leave the
loop; the `assert` aborts the process, and `main` does not return. -/
theorem exit_then_invalid_aborts :
    HasExit exitThenInvalidPass.messages ∧
    iteration false exitThenInvalidPass [] = Step.abort ∧
    main false [exitThenInvalidPass] = Outcome.aborted :=
  ⟨⟨⟨MessageOutboundType.Exit, ""⟩, by decide, rfl⟩, by decide, by decide⟩

/-- C10, amended: where the `assert` of the inner loop holds for the
messages of a pass, or is compiled out, the pass leaves the loop exactly
when a message of type `Exit` is among those it dequeues; it then has
dequeued and handled every message on offer, those behind the `Exit` too,
and has handled no console command; a pass without `Exit` handles the
command on offer and runs again.  Where the `assert` fails the pass aborts
the process.  In every case a pass leaves only after an `Exit`, and `main`
returns only with code `0` and an `Exit` message dequeued; where the
`assert` holds in every pass, `main` returns once a pass sees `Exit` and is
still running otherwise. -/
theorem main_leaves_on_exit_only (NDEBUG : Bool) (schedule : List Iteration)
    (it : Iteration) (log : List Event) :
    (AssertsHold NDEBUG it.messages →
      ((∃ log', iteration NDEBUG it log = Step.leave log') ↔ HasExit it.messages) ∧
      (HasExit it.messages →
        iteration NDEBUG it log = Step.leave (log ++ handledLog it.messages)) ∧
      (¬ HasExit it.messages →
        iteration NDEBUG it log =
          Step.again (log ++ handledLog it.messages ++ commandLog it.command))) ∧
    (¬ AssertsHold NDEBUG it.messages → iteration NDEBUG it log = Step.abort) ∧
    (∀ log', iteration NDEBUG it log = Step.leave log' →
      HasExit it.messages ∧ log' = log ++ handledLog it.messages) ∧
    dequeuedMessages (log ++ handledLog it.messages) = dequeuedMessages log ++ it.messages ∧
    handledCommands (log ++ handledLog it.messages) = handledCommands log ∧
    (∀ code log', main NDEBUG schedule = Outcome.returned code log' →
      code = 0 ∧ dequeuedExits log' ≠ []) ∧
    ((∀ i ∈ schedule, AssertsHold NDEBUG i.messages) →
      ((∃ i ∈ schedule, HasExit i.messages) →
        ∃ log', main NDEBUG schedule = Outcome.returned 0 log') ∧
      ((∀ i ∈ schedule, ¬ HasExit i.messages) →
        ∃ log', main NDEBUG schedule = Outcome.running log')) := by
  refine ⟨fun hit =>
      ⟨⟨fun ⟨_, h⟩ => (iteration_leave h).1, fun h => ⟨_, iteration_of_exit log hit h⟩⟩,
        iteration_of_exit log hit, iteration_of_no_exit log hit⟩,
    iteration_abort log, fun log' h => iteration_leave h, ?_, ?_,
    fun code log' h => mainLoop_returned schedule _ code log' h,
    fun hschedule =>
      ⟨fun h => mainLoop_returns schedule hschedule h _,
        fun h => mainLoop_keeps_running schedule hschedule h _⟩⟩
  · unfold dequeuedMessages
    rw [List.filterMap_append]
    exact congrArg _ (dequeuedMessages_handledLog it.messages)
  · unfold handledCommands
    rw [List.filterMap_append]
    have := handledCommands_handledLog it.messages
    unfold handledCommands at this
    rw [this, List.append_nil]

/-! ## The theorems at sample inputs -/

namespace ModelRenderer

/-- C1 at a sample input: on the renderer holding "Chair", the first
`LoadModel("Window")` returns id 1 and so does the second, which changes
nothing. -/
theorem LoadModel_idempotent_witness :
    Reachable oneModel ∧
    (LoadModel oneModel "Window" window).1 = 1 ∧
    LoadModel (LoadModel oneModel "Window" window).2 "Window" window =
      ((LoadModel oneModel "Window" window).1, (LoadModel oneModel "Window" window).2) :=
  ⟨Reachable.loadModel "Chair" chair Reachable.construct, by decide,
    LoadModel_idempotent oneModel (Reachable.loadModel "Chair" chair Reachable.construct)
      "Window" window⟩

/-- C4 at a sample input: the ranges of "Chair" (id 0) and "Window" (id 1). -/
theorem manifest_ranges_disjoint_witness :
    Reachable twoModels ∧ (0 : Nat) ≠ 1 ∧
    (GetModelManifests twoModels).1[0]? = some chairManifest ∧
    (GetModelManifests twoModels).1[1]? = some windowManifest ∧
    RangesDisjoint 0 10 10 4 ∧ RangesDisjoint 0 12 12 6 ∧
    RangesDisjoint 0 1 1 1 ∧ RangesDisjoint 0 0 0 1 :=
  ⟨Reachable.loadModel "Window" window
      (Reachable.loadModel "Chair" chair Reachable.construct),
    by decide, by decide, by decide,
    manifest_ranges_disjoint twoModels
      (Reachable.loadModel "Window" window
        (Reachable.loadModel "Chair" chair Reachable.construct))
      0 1 chairManifest windowManifest (by decide) (by decide) (by decide)⟩

/-- C9 at a sample input: view 1 of a renderer whose frame reported 3
occluder draw calls and 6 survivors in view 1, with 2 triangles per draw
call, against the same renderer with "Chair" loaded. -/
theorem triangle_stats_scale_draw_calls_witness :
    (1 < 4) ∧
    afterFrameLoaded._numOccluderDrawCalls = afterFrame._numOccluderDrawCalls ∧
    afterFrameLoaded._numSurvivingDrawCalls = afterFrame._numSurvivingDrawCalls ∧
    (GetNumOccluderTriangles 2 afterFrame).1 = 6 ∧
    GetNumSurvivingGeometryTriangles 2 afterFrame 1 = some (12, afterFrame) ∧
    (GetNumOccluderTriangles 2 afterFrameLoaded).1 = (GetNumOccluderTriangles 2 afterFrame).1 ∧
    (GetNumSurvivingGeometryTriangles 2 afterFrameLoaded 1).map Prod.fst =
      (GetNumSurvivingGeometryTriangles 2 afterFrame 1).map Prod.fst :=
  have h := triangle_stats_scale_draw_calls 2 afterFrame afterFrameLoaded 1 (by decide)
    rfl rfl
  ⟨by decide, rfl, rfl, h.1, by obtain ⟨n, h1, h2⟩ := h.2.1; exact h2.trans (by
      have : n = 6 := by
        have h3 : GetNumSurvivingDrawCalls afterFrame 1 = some (6, afterFrame) := rfl
        rw [h3] at h1
        simp only [Option.some.injEq, Prod.mk.injEq] at h1
        exact h1.1.symm
      subst this
      rfl), h.2.2.2.2.1, h.2.2.2.2.2⟩

end ModelRenderer

/-- C10 at a sample input: without `NDEBUG`, a pass that sees `Pong`, `Exit`
and a late `Print` with a console line ready, in a run of a print pass
followed by that pass. -/
theorem main_leaves_on_exit_only_witness :
    AssertsHold false exitPass.messages ∧
    (∀ i ∈ [printPass, exitPass], AssertsHold false i.messages) ∧
    iteration false exitPass [] = Step.leave (handledLog exitPass.messages) ∧
    dequeuedMessages (handledLog exitPass.messages) = exitPass.messages ∧
    handledCommands (handledLog exitPass.messages) = [] ∧
    (∃ log', main false [printPass, exitPass] = Outcome.returned 0 log') :=
  have hexit : AssertsHold false exitPass.messages := Or.inr (by decide)
  have hall : ∀ i ∈ [printPass, exitPass], AssertsHold false i.messages := by
    intro i hi
    simp only [List.mem_cons, List.mem_singleton, List.not_mem_nil, or_false] at hi
    rcases hi with rfl | rfl
    · exact Or.inr (by decide)
    · exact Or.inr (by decide)
  have hx : HasExit exitPass.messages := ⟨⟨MessageOutboundType.Exit, ""⟩, by decide, rfl⟩
  have h := main_leaves_on_exit_only false [printPass, exitPass] exitPass []
  ⟨hexit, hall, (h.1 hexit).2.1 hx, h.2.2.2.1, h.2.2.2.2.1,
    (h.2.2.2.2.2.2 hall).1 ⟨exitPass, by simp, hx⟩⟩

end Game
